import Mathlib

/-!
# The `Thing` emitter and its recording test double

A shallow embedding of `thing.go`, `thing_test.go` and `example_test.go`.

* A Go `string` is an immutable byte sequence; `[]byte(s)` and `string(b)`
  convert between the two without changing any byte.
* A Go `error` is `none` for `nil` and `some text` otherwise.
* An `io.Writer` is a dictionary holding its `Write` method, acting on an
  explicit state `σ` (the object behind the interface value).
* A call through a nil pointer or nil interface is a `Panic`.
-/

namespace GoTesting

/-! ## Go values -/

/-- A Go byte slice `[]byte`. -/
abbrev Bytes := List UInt8

/-- A Go `string`: a sequence of bytes. -/
structure GoString where
  bytes : Bytes
deriving DecidableEq, Repr

/-- The conversion `[]byte(s)`. -/
def GoString.toBytes (s : GoString) : Bytes := s.bytes

/-- The conversion `string(b)`. -/
def GoString.ofBytes (b : Bytes) : GoString := ⟨b⟩

/-- An ASCII string literal of the source. -/
def GoString.lit (s : String) : GoString := ⟨s.toList.map (fun c => c.toNat.toUInt8)⟩

/-- A Go `error` value: `none` is `nil`. -/
abbrev GoError := Option String

/-- A run-time panic. -/
inductive Panic where
  | nilDereference
  | explicit (err : String)
deriving DecidableEq, Repr

/-- The interface `io.Writer`, over the state `σ` of the object that implements it. -/
structure Writer (σ : Type) where
  Write : Bytes → σ → (Int × GoError) × σ

/-- The methods of `*log.Logger` that the program calls, over the state `σ`
the logger acts on. `Println` takes its variadic operands as a list and returns nothing. -/
structure Logger (σ : Type) where
  Println : List GoString → σ → σ

/-- The functions of package `os` that `WriteLogFile` calls: `os.Create`,
returning a handle of type `F` or an error, and `(*os.File).Write`. -/
structure FileOps (σ F : Type) where
  Create : GoString → σ → Except String F × σ
  Write : F → Bytes → σ → (Int × GoError) × σ

/-! ## `thing.go` -/

/-- The struct `Thing`. A field left out of a composite literal has its zero value:
the empty string, a nil logger, a nil writer. -/
structure Thing (σ : Type) where
  Msg : GoString
  LogFile : GoString := ⟨[]⟩
  Logger : Option (Logger σ) := none
  Writer : Option (Writer σ) := none

/-- The state of the process that `os.Stdout` writes to: the bytes put out so far. -/
structure Process where
  stdout : Bytes
deriving DecidableEq, Repr

/-- The file `os.Stdout` as an `io.Writer`: a write appends its bytes to the
standard output and reports all of them written. -/
def os.Stdout : Writer Process :=
  ⟨fun b p => ((b.length, none), { stdout := p.stdout ++ b })⟩

/-- The constructor `NewThing`. -/
def NewThing (msg : GoString) : Thing Process :=
  { Msg := msg, Writer := some os.Stdout }

/-- The method `(*Thing).WriteLogFile`, over the file operations `fo`. -/
def Thing.WriteLogFile {σ F τ : Type} (fo : FileOps σ F) (t : Thing τ) (s : σ) : GoError × σ :=
  match fo.Create t.LogFile s with
  | (.error err, s1) => (some err, s1)
  | (.ok f, s1) =>
    let r := fo.Write f t.Msg.toBytes s1
    (r.1.2, r.2)

/-- The method `(*Thing).WriteLogger`. -/
def Thing.WriteLogger {σ : Type} (t : Thing σ) (s : σ) : Except Panic σ :=
  match t.Logger with
  | none => .error .nilDereference
  | some l => .ok (l.Println [t.Msg] s)

/-- The method `(*Thing).WriteWriter`. -/
def Thing.WriteWriter {σ : Type} (t : Thing σ) (s : σ) : Except Panic (GoError × σ) :=
  match t.Writer with
  | none => .error .nilDereference
  | some w =>
    let r := w.Write t.Msg.toBytes s
    .ok (r.1.2, r.2)

/-! ## `thing_test.go` -/

/-- The struct `MockWriteStorer`, each entry given by the bytes it reads. -/
structure MockWriteStorer where
  wrote : List Bytes
deriving DecidableEq, Repr

/-- The method `(*MockWriteStorer).Write`, on the entries as they read when the call
returns. The method keeps the slice it is given, not a copy of its bytes; for a caller
that changes a buffer after writing it, see `Aliased.MockWriteStorer.Write`. -/
def MockWriteStorer.Write (b : Bytes) (w : MockWriteStorer) : (Int × GoError) × MockWriteStorer :=
  ((b.length, none), { wrote := w.wrote ++ [b] })

/-- A `*MockWriteStorer` used as an `io.Writer`. -/
def MockWriteStorer.asWriter : Writer MockWriteStorer := ⟨MockWriteStorer.Write⟩

/-- What a `*testing.T` records of a test: whether it has failed, and the messages logged. -/
structure T where
  failed : Bool
  output : List GoString
deriving DecidableEq, Repr

/-- The method `t.Errorf` with its message already formatted: log the message, mark the test failed. -/
def T.Errorf (t : T) (msg : GoString) : T :=
  { failed := true, output := t.output ++ [msg] }

/-- The loop of `assertWrote`: `true` when it reaches its `return`. -/
def MockWriteStorer.assertWrote.loop (str : GoString) : List Bytes → Bool
  | [] => false
  | wrote :: rest =>
    if GoString.ofBytes wrote = str then true else MockWriteStorer.assertWrote.loop str rest

/-- The format `"'%s' was not written"` applied to `str`. -/
def notWritten (str : GoString) : GoString :=
  ⟨[39] ++ str.bytes ++ [39] ++ (GoString.lit " was not written").bytes⟩

/-- The method `(*MockWriteStorer).assertWrote`. -/
def MockWriteStorer.assertWrote (w : MockWriteStorer) (t : T) (b : Bytes) : T :=
  let str := GoString.ofBytes b
  if MockWriteStorer.assertWrote.loop str w.wrote then t else t.Errorf (notWritten str)

/-- A sequence of `WriteWriter` calls, one per message and in the order of the
list, on things that share one `*MockWriteStorer`; the errors returned are collected. -/
def emitAll : List GoString → MockWriteStorer → Except Panic (List GoError × MockWriteStorer)
  | [], w => .ok ([], w)
  | m :: ms, w =>
    match ({ Msg := m, Writer := some MockWriteStorer.asWriter } : Thing MockWriteStorer).WriteWriter w with
    | .error p => .error p
    | .ok (err, w1) =>
      match emitAll ms w1 with
      | .error p => .error p
      | .ok (errs, w2) => .ok (err :: errs, w2)

/-! ## `thing_test.go`, with the slices the recorder keeps

`Write` appends the slice it is given to `wrote`; the slice shares its backing array
with the caller. Here a slice is a value pointing into a heap of backing arrays, and
the recorder holds slice values, so that a caller who overwrites a buffer after
writing it changes what the recorded entry reads. -/

/-- The backing arrays of the byte slices of a program; an address is an index. -/
abbrev Heap := List Bytes

/-- A slice value `[]byte`: the address of its backing array, the offset of its
first byte in the array, and its length. -/
structure Slice where
  addr : Nat
  off : Nat
  len : Nat
deriving DecidableEq, Repr

/-- The bytes a slice reads in a heap. -/
def Heap.read (h : Heap) (b : Slice) : Bytes :=
  (((h[b.addr]?).getD []).drop b.off).take b.len

/-- A fresh slice holding `bs`, as made by `[]byte("...")`: the slice and the new heap. -/
def Heap.alloc (h : Heap) (bs : Bytes) : Slice × Heap :=
  ({ addr := h.length, off := 0, len := bs.length }, h ++ [bs])

/-- The builtin `copy(dst, src)`: the number of bytes copied and the new heap. -/
def Heap.copy (h : Heap) (dst : Slice) (src : Bytes) : Nat × Heap :=
  let n := min dst.len src.length
  match h[dst.addr]? with
  | none => (0, h)
  | some arr => (n, h.set dst.addr (arr.take dst.off ++ src.take n ++ arr.drop (dst.off + n)))

/-- The struct `MockWriteStorer`, holding slice values. -/
structure Aliased.MockWriteStorer where
  wrote : List Slice
deriving DecidableEq, Repr

/-- The method `(*MockWriteStorer).Write` on slice values: the slice itself is appended. -/
def Aliased.MockWriteStorer.Write (b : Slice) (w : Aliased.MockWriteStorer) :
    (Int × GoError) × Aliased.MockWriteStorer :=
  ((b.len, none), { wrote := w.wrote ++ [b] })

/-- The loop of `assertWrote` on slice values; `string(wrote)` reads the heap. -/
def Aliased.MockWriteStorer.assertWrote.loop (h : Heap) (str : GoString) : List Slice → Bool
  | [] => false
  | wrote :: rest =>
    if GoString.ofBytes (h.read wrote) = str then true
    else Aliased.MockWriteStorer.assertWrote.loop h str rest

/-- The method `(*MockWriteStorer).assertWrote` on slice values, run in the heap `h`. -/
def Aliased.MockWriteStorer.assertWrote (w : Aliased.MockWriteStorer) (h : Heap) (t : T)
    (b : Slice) : T :=
  let str := GoString.ofBytes (h.read b)
  if Aliased.MockWriteStorer.assertWrote.loop h str w.wrote then t
  else t.Errorf (notWritten str)

/-- What the entries of a recorder read in the heap `h`. -/
def Aliased.MockWriteStorer.view (w : Aliased.MockWriteStorer) (h : Heap) : GoTesting.MockWriteStorer :=
  { wrote := w.wrote.map h.read }

/-- The writes of the slices `bs`, made in order on the recorder `w`. -/
def Aliased.writeAll (bs : List Slice) (w : Aliased.MockWriteStorer) : Aliased.MockWriteStorer :=
  bs.foldl (fun acc b => (Aliased.MockWriteStorer.Write b acc).2) w

/-- A caller with a fresh recorder and a buffer holding `ab`: it writes the buffer,
overwrites the buffer with `cd`, writes the buffer again, and then asks for `ab`. The
result is the final heap, the recorder, and the slice asked for. -/
def reuseRun : Heap × Aliased.MockWriteStorer × Slice :=
  let a := Heap.alloc [] [97, 98]
  let w1 := (Aliased.MockWriteStorer.Write a.1 { wrote := [] }).2
  let h1 := (a.2.copy a.1 [99, 100]).2
  let w2 := (Aliased.MockWriteStorer.Write a.1 w1).2
  let q := h1.alloc [97, 98]
  (q.2, w2, q.1)

/-! ## `example_test.go` -/

/-- The testable example `ExampleThing`; what it leaves on standard output is
compared with the text after `// Output:`. -/
def ExampleThing (p : Process) : Except Panic Process :=
  let t := NewThing (GoString.lit "hello")
  match t.WriteWriter p with
  | .error e => .error e
  | .ok (some err, _) => .error (.explicit err)
  | .ok (none, p1) => .ok p1

/-! ## A filesystem as a map from paths to contents

Package `os` is not part of the program. This is the behaviour its documentation
gives to the two calls `WriteLogFile` makes: `os.Create` creates the named file or
truncates it if it exists and yields a file positioned at offset 0, or fails with an
error; `Write` stores bytes at the offset of the file and returns a non-nil error
whenever it stores fewer bytes than it was given. -/

/-- An open file: the path it was opened at and the offset of its next write. -/
structure OpenFile where
  name : GoString
  offset : Nat
deriving DecidableEq, Repr

/-- A filesystem: the content of the file at each path (`none` where there is no
file), the error with which creating a file at a path is refused (`none` where it is
allowed), the number of bytes the device still accepts, and the files opened so far. -/
structure FileSys where
  files : GoString → Option Bytes
  refuse : GoString → Option String
  room : Nat
  opened : List OpenFile

/-- The function `os.Create` on a `FileSys`; the handle is an index into `opened`. -/
def FileSys.Create (name : GoString) (fs : FileSys) : Except String Nat × FileSys :=
  match fs.refuse name with
  | some err => (.error err, fs)
  | none =>
    (.ok fs.opened.length,
      { fs with
        files := fun q => if q = name then some [] else fs.files q
        opened := fs.opened ++ [{ name := name, offset := 0 }] })

/-- The method `(*os.File).Write` on a `FileSys`. -/
def FileSys.Write (fd : Nat) (b : Bytes) (fs : FileSys) : (Int × GoError) × FileSys :=
  match fs.opened[fd]? with
  | none => ((0, some "bad file descriptor"), fs)
  | some f =>
    let n := min b.length fs.room
    let old := (fs.files f.name).getD []
    let new := old.take f.offset ++ List.replicate (f.offset - old.length) 0
      ++ b.take n ++ old.drop (f.offset + n)
    ((n, if n = b.length then none else some "no space left on device"),
      { fs with
        files := fun q => if q = f.name then some new else fs.files q
        room := fs.room - n
        opened := fs.opened.set fd { f with offset := f.offset + n } })

/-- The two calls of package `os` on a `FileSys`. -/
def FileSys.ops : FileOps FileSys Nat := ⟨FileSys.Create, FileSys.Write⟩

/-! ## The standard logger

Package `log` is not part of the program either. `Println` formats its operands as
`fmt.Sprintln` does, puts the header of the logger in front, ends the line if it is
not ended, and hands the whole line to the output of the logger in one `Write`,
whose result it drops. The header (prefix, date, time, file) is a parameter. -/

/-- The function `fmt.Sprintln` on string operands: the operands separated by
spaces, then a newline. -/
def fmt.Sprintln (args : List GoString) : Bytes :=
  List.intercalate [32] (args.map GoString.bytes) ++ [10]

/-- The logger `log.New(out, pfx, flag)`, with `formatHeader` giving the header
it puts in front of a line. -/
def log.New {σ : Type} (out : Writer σ) (pfx : GoString) (flag : Int)
    (formatHeader : GoString → Int → σ → Bytes) : Logger σ :=
  ⟨fun args s =>
    let str := fmt.Sprintln args
    let buf := formatHeader pfx flag s ++ str
    let line := if str.getLast? = some 10 then buf else buf ++ [10]
    (out.Write line s).2⟩

/-! ## Recording the calls made on a collaborator -/

/-- A writer that also records the argument of every `Write` call made on it. -/
def Writer.traced {σ : Type} (w : Writer σ) : Writer (σ × List Bytes) :=
  ⟨fun b s => let r := w.Write b s.1; (r.1, (r.2, s.2 ++ [b]))⟩

/-- A logger that also records the operands of every `Println` call made on it. -/
def Logger.traced {σ : Type} (l : Logger σ) : Logger (σ × List (List GoString)) :=
  ⟨fun args s => (l.Println args s.1, s.2 ++ [args])⟩

/-- A call on package `os`. -/
inductive FileCall (F : Type) where
  | create (name : GoString)
  | write (f : F) (b : Bytes)
deriving DecidableEq, Repr

/-- File operations that also record every call made on them. -/
def FileOps.traced {σ F : Type} (fo : FileOps σ F) : FileOps (σ × List (FileCall F)) F where
  Create := fun name s => let r := fo.Create name s.1; (r.1, (r.2, s.2 ++ [.create name]))
  Write := fun f b s => let r := fo.Write f b s.1; (r.1, (r.2, s.2 ++ [.write f b]))

/-! ## Inputs for the examples -/

/-- A sink that stores at most two bytes of what it is given and reports two bytes
written and a nil error. -/
def shortSink : Writer Bytes := ⟨fun b s => ((2, none), s ++ b.take 2)⟩

/-- A filesystem in which the file at path `a` holds three bytes. -/
def fsHolding : FileSys where
  files := fun q => if q = ⟨[97]⟩ then some [1, 2, 3] else none
  refuse := fun _ => none
  room := 10
  opened := []

/-- A sink that appends what it is given to the bytes it holds. -/
def appendSink : Writer Bytes := ⟨fun b s => ((b.length, none), s ++ b)⟩

/-! ## The recording writer -/

theorem WriteWriter_mock (m : GoString) (w : MockWriteStorer) :
    ({ Msg := m, Writer := some MockWriteStorer.asWriter } : Thing MockWriteStorer).WriteWriter w
      = .ok (none, { wrote := w.wrote ++ [m.toBytes] }) := rfl

theorem emitAll_eq (ms : List GoString) (w : MockWriteStorer) :
    emitAll ms w
      = .ok (ms.map (fun _ => none), { wrote := w.wrote ++ ms.map GoString.toBytes }) := by
  induction ms generalizing w with
  | nil => simp [emitAll]
  | cons m ms ih => simp [emitAll, WriteWriter_mock, ih]

theorem assertWrote_loop_iff (str : GoString) (l : List Bytes) :
    MockWriteStorer.assertWrote.loop str l = true ↔ str.bytes ∈ l := by
  induction l with
  | nil => simp [MockWriteStorer.assertWrote.loop]
  | cons a l ih =>
    by_cases h : GoString.ofBytes a = str
    · have : str.bytes = a := by rw [← h]; rfl
      simp [MockWriteStorer.assertWrote.loop, h, this]
    · have : ¬ str.bytes = a := by
        intro e; apply h; cases str; simp_all [GoString.ofBytes]
      simp [MockWriteStorer.assertWrote.loop, h, this, ih]

theorem Errorf_ne (t : T) (msg : GoString) : t.Errorf msg ≠ t := by
  intro h
  have := congrArg (fun x => x.output.length) h
  simp [T.Errorf] at this

/-- C1: `WriteWriter` on a thing whose writer is a fresh `MockWriteStorer` returns a
nil error and leaves exactly one recorded entry, the bytes of the message; for the
empty message that entry is the empty byte sequence. -/
theorem C1_writeWriter_fresh_mock :
    (∀ m : GoString,
      ({ Msg := m, Writer := some MockWriteStorer.asWriter } : Thing MockWriteStorer).WriteWriter
          { wrote := [] }
        = .ok (none, { wrote := [m.toBytes] })) ∧
    ({ Msg := ⟨[]⟩, Writer := some MockWriteStorer.asWriter } : Thing MockWriteStorer).WriteWriter
        { wrote := [] }
      = .ok (none, { wrote := [[]] }) :=
  ⟨fun _ => rfl, rfl⟩

/-- C3: `MockWriteStorer.Write` never fails: it returns the length of its argument
and a nil error, and the record list afterwards is the old one with the argument
appended last, so the length grows by one and every earlier entry keeps its position. -/
theorem C3_mock_write_appends (w : MockWriteStorer) (b : Bytes) :
    (MockWriteStorer.Write b w).1 = ((b.length : Int), none) ∧
    (MockWriteStorer.Write b w).2.wrote = w.wrote ++ [b] ∧
    (MockWriteStorer.Write b w).2.wrote.length = w.wrote.length + 1 ∧
    (MockWriteStorer.Write b w).2.wrote.getLast? = some b ∧
    (MockWriteStorer.Write b w).2.wrote.take w.wrote.length = w.wrote ∧
    (∀ i : Fin w.wrote.length,
      (MockWriteStorer.Write b w).2.wrote[i.val]? = some (w.wrote.get i)) := by
  refine ⟨rfl, rfl, ?_, ?_, ?_, ?_⟩
  · simp [MockWriteStorer.Write]
  · simp [MockWriteStorer.Write]
  · simp [MockWriteStorer.Write]
  · intro i
    simp [MockWriteStorer.Write, List.getElem?_append_left i.isLt]

/-- C4: messages emitted in order by `WriteWriter` calls on things sharing one initially
empty `MockWriteStorer` are recorded in call order: every call returns nil, the record
list is the list of the messages, entry `i` is the message of call `i + 1`, and for two
emits entry 0 is the first message and entry 1 the second. -/
theorem C4_emit_order :
    (∀ ms : List GoString, ∃ w : MockWriteStorer,
      emitAll ms { wrote := [] } = .ok (ms.map (fun _ => none), w) ∧
      w.wrote = ms.map GoString.toBytes ∧
      w.wrote.length = ms.length ∧
      ∀ i : Nat, w.wrote[i]? = (ms[i]?).map GoString.toBytes) ∧
    (∀ m1 m2 : GoString, ∃ w : MockWriteStorer,
      emitAll [m1, m2] { wrote := [] } = .ok ([none, none], w) ∧
      w.wrote.length = 2 ∧ w.wrote[0]? = some m1.toBytes ∧ w.wrote[1]? = some m2.toBytes) := by
  constructor
  · intro ms
    refine ⟨{ wrote := ms.map GoString.toBytes }, ?_, rfl, by simp, by simp⟩
    simpa using emitAll_eq ms { wrote := [] }
  · intro m1 m2
    exact ⟨{ wrote := [m1.toBytes, m2.toBytes] }, rfl, rfl, rfl, rfl⟩

theorem assertWrote_eq_iff (w : MockWriteStorer) (t : T) (b : Bytes) :
    w.assertWrote t b = t ↔ b ∈ w.wrote := by
  unfold MockWriteStorer.assertWrote
  by_cases h : MockWriteStorer.assertWrote.loop (GoString.ofBytes b) w.wrote = true
  · have hb := (assertWrote_loop_iff _ _).1 h
    simpa [h] using hb
  · have hb : b ∉ w.wrote := fun hb => h ((assertWrote_loop_iff (GoString.ofBytes b) _).2 hb)
    simp [h, Errorf_ne, hb]

theorem assertWrote_failed (w : MockWriteStorer) (t : T) (b : Bytes) :
    (w.assertWrote t b).failed = (t.failed || decide (b ∉ w.wrote)) := by
  unfold MockWriteStorer.assertWrote
  by_cases h : MockWriteStorer.assertWrote.loop (GoString.ofBytes b) w.wrote = true
  · have hb : b ∈ w.wrote := (assertWrote_loop_iff _ _).1 h
    simp [h, hb]
  · have hb : b ∉ w.wrote := fun hb => h ((assertWrote_loop_iff (GoString.ofBytes b) _).2 hb)
    simp [h, hb, T.Errorf]

theorem aliased_loop_eq_view (h : Heap) (str : GoString) (l : List Slice) :
    Aliased.MockWriteStorer.assertWrote.loop h str l
      = MockWriteStorer.assertWrote.loop str (l.map h.read) := by
  induction l with
  | nil => rfl
  | cons a l ih =>
    simp only [Aliased.MockWriteStorer.assertWrote.loop, MockWriteStorer.assertWrote.loop,
      List.map_cons, ih]

theorem aliased_assertWrote_eq_view (w : Aliased.MockWriteStorer) (h : Heap) (t : T) (q : Slice) :
    w.assertWrote h t q = (w.view h).assertWrote t (h.read q) := by
  simp only [Aliased.MockWriteStorer.assertWrote, MockWriteStorer.assertWrote,
    Aliased.MockWriteStorer.view, aliased_loop_eq_view]

theorem aliased_view_Write (w : Aliased.MockWriteStorer) (h : Heap) (b : Slice) :
    (Aliased.MockWriteStorer.Write b w).2.view h
      = (MockWriteStorer.Write (h.read b) (w.view h)).2 := by
  simp [Aliased.MockWriteStorer.Write, MockWriteStorer.Write, Aliased.MockWriteStorer.view]

theorem aliased_wrote_writeAll (bs : List Slice) (w : Aliased.MockWriteStorer) :
    (Aliased.writeAll bs w).wrote = w.wrote ++ bs := by
  induction bs generalizing w with
  | nil => simp [Aliased.writeAll]
  | cons b bs ih =>
    have := ih (Aliased.MockWriteStorer.Write b w).2
    simp only [Aliased.writeAll, List.foldl_cons] at this ⊢
    rw [this]
    simp [Aliased.MockWriteStorer.Write]

theorem aliased_mem_view (w : Aliased.MockWriteStorer) (h : Heap) (x : Bytes) :
    x ∈ (w.view h).wrote ↔ ∃ e ∈ w.wrote, h.read e = x := by
  simp [Aliased.MockWriteStorer.view]

/-- C5, as first stated, fails: a caller writes a buffer reading `ab`, overwrites the
buffer with `cd` and writes it again; both recorded entries then read `cd`, and
`assertWrote` of a slice reading `ab` marks the test failed although a write of `ab`
has occurred. -/
theorem C5_reused_buffer_fails :
    Heap.read (Heap.alloc [] [97, 98]).2 (Heap.alloc [] [97, 98]).1 = [97, 98] ∧
    reuseRun.2.1.wrote = [(Heap.alloc [] [97, 98]).1, (Heap.alloc [] [97, 98]).1] ∧
    reuseRun.2.1.view reuseRun.1 = { wrote := [[99, 100], [99, 100]] } ∧
    Heap.read reuseRun.1 reuseRun.2.2 = [97, 98] ∧
    (reuseRun.2.1.assertWrote reuseRun.1 { failed := false, output := [] } reuseRun.2.2).failed
      = true := by
  decide

/-- C5, amended: `assertWrote(q)` reports no failure exactly when some recorded entry
reads, now, the bytes of `q`: it leaves the test state untouched iff there is one and
otherwise marks the test failed. After `Write(b)` and any later writes it passes for
every `q` that reads what the slice `b` still reads. It fails on an empty recorder, and
when `q` is only a proper prefix or a proper part of the one entry. -/
theorem C5_assertWrote_current (h : Heap) (w : Aliased.MockWriteStorer) (t : T) (b q : Slice)
    (later : List Slice) (hq : h.read b = h.read q) :
    (w.assertWrote h t q = t ↔ ∃ e ∈ w.wrote, h.read e = h.read q) ∧
    ((w.assertWrote h { failed := false, output := [] } q).failed = false ↔
      ∃ e ∈ w.wrote, h.read e = h.read q) ∧
    ((w.assertWrote h t q).failed = true ↔
      t.failed = true ∨ ¬ ∃ e ∈ w.wrote, h.read e = h.read q) ∧
    (Aliased.writeAll later (Aliased.MockWriteStorer.Write b w).2).assertWrote h t q = t ∧
    (Aliased.MockWriteStorer.assertWrote { wrote := [] } h t q).failed = true ∧
    w.assertWrote h t q = (w.view h).assertWrote t (h.read q) ∧
    (∀ (v : GoTesting.MockWriteStorer) (u : T) (x : Bytes),
      (v.assertWrote u x = u ↔ ∃ e ∈ v.wrote, e = x) ∧
      ((v.assertWrote { failed := false, output := [] } x).failed = false ↔ ∃ e ∈ v.wrote, e = x) ∧
      ((v.assertWrote u x).failed = true ↔ u.failed = true ∨ ¬ ∃ e ∈ v.wrote, e = x)) ∧
    (∀ (u : T) (x : Bytes),
      (GoTesting.MockWriteStorer.assertWrote { wrote := [] } u x).failed = true) ∧
    (∀ (u : T) (x post : Bytes) (c : UInt8),
      (GoTesting.MockWriteStorer.assertWrote { wrote := [x ++ c :: post] } u x).failed = true) ∧
    (∀ (u : T) (pre x post : Bytes) (c : UInt8),
      (GoTesting.MockWriteStorer.assertWrote { wrote := [c :: pre ++ x ++ post] } u x).failed = true ∧
      (GoTesting.MockWriteStorer.assertWrote { wrote := [pre ++ x ++ c :: post] } u x).failed = true) := by
  refine ⟨?_, ?_, ?_, ?_, ?_, aliased_assertWrote_eq_view w h t q,
    fun v u x => ⟨?_, ?_, ?_⟩, ?_, ?_, ?_⟩
  · rw [aliased_assertWrote_eq_view, assertWrote_eq_iff, aliased_mem_view]
  · rw [aliased_assertWrote_eq_view, assertWrote_failed]
    simp [aliased_mem_view]
  · rw [aliased_assertWrote_eq_view, assertWrote_failed]
    simp [aliased_mem_view]
  · rw [aliased_assertWrote_eq_view, assertWrote_eq_iff, aliased_mem_view,
      aliased_wrote_writeAll]
    exact ⟨b, by simp [Aliased.MockWriteStorer.Write], hq⟩
  · rw [aliased_assertWrote_eq_view, assertWrote_failed]
    simp [Aliased.MockWriteStorer.view]
  · simpa using assertWrote_eq_iff v u x
  · rw [assertWrote_failed]; simp
  · rw [assertWrote_failed]; simp
  · intro u x
    rw [assertWrote_failed]; simp
  · intro u x post c
    rw [assertWrote_failed]
    have hne : ¬ x = x ++ c :: post := fun e => by
      have hl := congrArg List.length e
      simp at hl
    simp [hne]
  · intro u pre x post c
    rw [assertWrote_failed, assertWrote_failed]
    have h1 : ¬ x = c :: pre ++ x ++ post := fun e => by
      have hl := congrArg List.length e
      simp at hl
      omega
    have h2 : ¬ x = pre ++ x ++ c :: post := fun e => by
      have hl := congrArg List.length e
      simp at hl
      omega
    simp only [List.mem_singleton, h1, h2, not_false_eq_true, decide_True, Bool.or_true, and_self]

/-- After a write of a buffer reading `ab` and one later write, a second slice that
reads `ab` is found while the buffer is unchanged. -/
theorem C5_assertWrote_current_witness :
    Heap.read [[97, 98], [99], [97, 98]] { addr := 0, off := 0, len := 2 }
      = Heap.read [[97, 98], [99], [97, 98]] { addr := 2, off := 0, len := 2 } ∧
    (Aliased.writeAll [{ addr := 1, off := 0, len := 1 }]
        (Aliased.MockWriteStorer.Write { addr := 0, off := 0, len := 2 }
          { wrote := [] }).2).assertWrote
        [[97, 98], [99], [97, 98]] { failed := false, output := [] }
        { addr := 2, off := 0, len := 2 }
      = { failed := false, output := [] } :=
  ⟨by decide,
    (C5_assertWrote_current [[97, 98], [99], [97, 98]] { wrote := [] }
      { failed := false, output := [] } { addr := 0, off := 0, len := 2 }
      { addr := 2, off := 0, len := 2 } [{ addr := 1, off := 0, len := 1 }] (by decide)).2.2.2.1⟩

/-! ## The constructor and standard output -/

/-- C6: `NewThing(msg)` stores `msg` verbatim, binds `Writer` to `os.Stdout`, and
leaves `LogFile` empty and `Logger` nil. -/
theorem C6_newThing_fields (msg : GoString) :
    (NewThing msg).Msg = msg ∧
    (NewThing msg).Writer = some os.Stdout ∧
    (NewThing msg).LogFile = ⟨[]⟩ ∧
    (NewThing msg).Logger = none ∧
    NewThing msg = { Msg := msg, LogFile := ⟨[]⟩, Logger := none, Writer := some os.Stdout } :=
  ⟨rfl, rfl, rfl, rfl, rfl⟩

/-- C9: with standard output an appending sink that reports success,
`NewThing(m).WriteWriter()` returns nil and appends exactly the bytes of `m` to
standard output, nothing after them; `ExampleThing` puts out `hello` and nothing else. -/
theorem C9_stdout_exact :
    (∀ (m : GoString) (p : Process),
      (NewThing m).WriteWriter p = .ok (none, { stdout := p.stdout ++ m.toBytes })) ∧
    (NewThing (GoString.lit "hello")).WriteWriter { stdout := [] }
      = .ok (none, { stdout := [104, 101, 108, 108, 111] }) ∧
    ExampleThing { stdout := [] } = .ok { stdout := (GoString.lit "hello").bytes } ∧
    (GoString.lit "hello").bytes = [104, 101, 108, 108, 111] :=
  ⟨fun _ _ => rfl, rfl, rfl, by decide⟩

/-! ## `WriteWriter` on an arbitrary sink -/

/-- C2: on a thing with a non-nil writer `W`, `WriteWriter` makes exactly one `Write`
call on `W`, with the complete bytes of `Msg`, and returns exactly the error of that
call: it fails iff the sink reports an error, whatever count the sink returns. -/
theorem C2_writeWriter_sink {σ : Type} (t : Thing σ) (W : Writer σ) (s : σ) (calls : List Bytes)
    (hW : t.Writer = some W) :
    t.WriteWriter s
      = .ok ((W.Write t.Msg.toBytes s).1.2, (W.Write t.Msg.toBytes s).2) ∧
    ({ Msg := t.Msg, LogFile := t.LogFile, Writer := some W.traced } :
        Thing (σ × List Bytes)).WriteWriter (s, calls)
      = .ok ((W.Write t.Msg.toBytes s).1.2,
          ((W.Write t.Msg.toBytes s).2, calls ++ [t.Msg.toBytes])) ∧
    ((∃ err s1, t.WriteWriter s = .ok (some err, s1)) ↔
      ∃ err, (W.Write t.Msg.toBytes s).1.2 = some err) ∧
    (t.WriteWriter s = .ok (none, (W.Write t.Msg.toBytes s).2) ↔
      (W.Write t.Msg.toBytes s).1.2 = none) ∧
    (∀ count : Int,
      ({ t with Writer := some ⟨fun b x => ((count, (W.Write b x).1.2), (W.Write b x).2)⟩ } :
          Thing σ).WriteWriter s
        = t.WriteWriter s) := by
  have h1 : t.WriteWriter s
      = .ok ((W.Write t.Msg.toBytes s).1.2, (W.Write t.Msg.toBytes s).2) := by
    simp [Thing.WriteWriter, hW]
  refine ⟨h1, rfl, ?_, ?_, ?_⟩
  · rw [h1]
    constructor
    · rintro ⟨err, s1, h⟩
      injection h with h
      exact ⟨err, (Prod.mk.inj h).1⟩
    · rintro ⟨err, h⟩
      exact ⟨err, _, by rw [h]⟩
  · rw [h1]
    constructor
    · intro h
      injection h with h
      exact (Prod.mk.inj h).1
    · intro h
      rw [h]
  · intro count
    rw [h1]
    rfl

/-- A sink that writes short: the five-byte message is reported as written. -/
theorem C2_writeWriter_sink_witness :
    ({ Msg := ⟨[104, 101, 108, 108, 111]⟩, Writer := some shortSink } : Thing Bytes).Writer
      = some shortSink ∧
    ({ Msg := ⟨[104, 101, 108, 108, 111]⟩, Writer := some shortSink } : Thing Bytes).WriteWriter []
      = .ok (none, [104, 101]) :=
  ⟨rfl, (C2_writeWriter_sink { Msg := ⟨[104, 101, 108, 108, 111]⟩, Writer := some shortSink }
    shortSink [] [] rfl).1⟩

/-! ## `WriteLogFile` -/

theorem getElem?_length_append_singleton {α : Type} (l : List α) (a : α) :
    (l ++ [a])[l.length]? = some a := by
  simp

/-- C7: on a filesystem that maps paths to contents, if `WriteLogFile` returns nil then
the file at `LogFile` holds exactly the bytes of `Msg`, whatever it held before. -/
theorem C7_logfile_roundtrip {τ : Type} (t : Thing τ) (fs : FileSys)
    (h : (t.WriteLogFile FileSys.ops fs).1 = none) :
    (t.WriteLogFile FileSys.ops fs).2.files t.LogFile = some t.Msg.toBytes := by
  unfold Thing.WriteLogFile at h ⊢
  cases hr : fs.refuse t.LogFile with
  | some err => simp [FileSys.ops, FileSys.Create, hr] at h
  | none =>
    simp only [FileSys.ops, FileSys.Create, hr, FileSys.Write,
      getElem?_length_append_singleton] at h ⊢
    have hn : min t.Msg.toBytes.length fs.room = t.Msg.toBytes.length := by
      by_contra hne
      simp [hne] at h
    simp [hn]

/-- A path that already holds three other bytes: the two bytes of the message replace them. -/
theorem C7_logfile_roundtrip_witness :
    fsHolding.files ⟨[97]⟩ = some [1, 2, 3] ∧
    ((({ Msg := ⟨[104, 105]⟩, LogFile := ⟨[97]⟩ } : Thing Unit).WriteLogFile FileSys.ops fsHolding).1
      = none) ∧
    (({ Msg := ⟨[104, 105]⟩, LogFile := ⟨[97]⟩ } : Thing Unit).WriteLogFile FileSys.ops
      fsHolding).2.files ⟨[97]⟩ = some [104, 105] :=
  ⟨by decide, by decide,
    C7_logfile_roundtrip ({ Msg := ⟨[104, 105]⟩, LogFile := ⟨[97]⟩ } : Thing Unit) fsHolding
      (by decide)⟩

/-- C8: when creating the file at `LogFile` fails, `WriteLogFile` returns the creation
error and the only call it makes is that `Create`; when it succeeds, `WriteLogFile` makes
one `Write` of the bytes of `Msg` on the created file and returns exactly its error. -/
theorem C8_logfile_errors {σ F τ : Type} (fo : FileOps σ F) (t : Thing τ) (s : σ)
    (calls : List (FileCall F)) :
    match fo.Create t.LogFile s with
    | (.error err, s1) =>
      t.WriteLogFile fo s = (some err, s1) ∧
      t.WriteLogFile fo.traced (s, calls) = (some err, (s1, calls ++ [.create t.LogFile]))
    | (.ok f, s1) =>
      t.WriteLogFile fo s = ((fo.Write f t.Msg.toBytes s1).1.2, (fo.Write f t.Msg.toBytes s1).2) ∧
      t.WriteLogFile fo.traced (s, calls)
        = ((fo.Write f t.Msg.toBytes s1).1.2,
            ((fo.Write f t.Msg.toBytes s1).2,
              calls ++ [.create t.LogFile, .write f t.Msg.toBytes])) := by
  rcases hc : fo.Create t.LogFile s with ⟨r, s1⟩
  cases r with
  | error err => simp [Thing.WriteLogFile, FileOps.traced, hc]
  | ok f => simp [Thing.WriteLogFile, FileOps.traced, hc]

/-! ## `WriteLogger` -/

theorem Sprintln_single (m : GoString) : fmt.Sprintln [m] = m.bytes ++ [10] := by
  simp [fmt.Sprintln, List.intercalate]

theorem Println_New {σ : Type} (out : Writer σ) (pfx : GoString) (flag : Int)
    (formatHeader : GoString → Int → σ → Bytes) (m : GoString) (s : σ) :
    (log.New out pfx flag formatHeader).Println [m] s
      = (out.Write (formatHeader pfx flag s ++ m.bytes ++ [10]) s).2 := by
  simp [log.New, Sprintln_single]

/-- C10: on a thing with a non-nil logger `L`, `WriteLogger` makes exactly one `Println`
call on `L`, with `Msg` as its only operand, and returns nothing of it; when the logger
is a standard logger on a sink, the sink receives one line, header then `Msg` then a
newline, so `Msg` is a contiguous part of it, and an error of the sink is not surfaced. -/
theorem C10_writeLogger {σ : Type} (t : Thing σ) (L : Logger σ) (s : σ)
    (calls : List (List GoString)) (hL : t.Logger = some L) :
    t.WriteLogger s = .ok (L.Println [t.Msg] s) ∧
    ({ Msg := t.Msg, LogFile := t.LogFile, Logger := some L.traced } :
        Thing (σ × List (List GoString))).WriteLogger (s, calls)
      = .ok (L.Println [t.Msg] s, calls ++ [[t.Msg]]) ∧
    (∀ (out : Writer σ) (pfx : GoString) (flag : Int)
        (formatHeader : GoString → Int → σ × List Bytes → Bytes) (written : List Bytes),
      ({ Msg := t.Msg, LogFile := t.LogFile,
          Logger := some (log.New out.traced pfx flag formatHeader) } :
          Thing (σ × List Bytes)).WriteLogger (s, written)
        = .ok ((out.Write (formatHeader pfx flag (s, written) ++ t.Msg.bytes ++ [10]) s).2,
            written ++ [formatHeader pfx flag (s, written) ++ t.Msg.bytes ++ [10]]) ∧
      t.Msg.bytes <:+: formatHeader pfx flag (s, written) ++ t.Msg.bytes ++ [10]) := by
  refine ⟨by simp [Thing.WriteLogger, hL], rfl, ?_⟩
  intro out pfx flag formatHeader written
  constructor
  · simp only [Thing.WriteLogger, Println_New]
    rfl
  · exact ⟨formatHeader pfx flag (s, written), [10], rfl⟩

/-- A standard logger whose header is its prefix `lg`: for the message `hi` the sink
receives `lghi` and a newline. -/
theorem C10_writeLogger_witness :
    ({ Msg := ⟨[104, 105]⟩,
        Logger := some (log.New appendSink ⟨[108, 103]⟩ 3 (fun pfx _ _ => pfx.bytes)) } :
        Thing Bytes).Logger
      = some (log.New appendSink ⟨[108, 103]⟩ 3 (fun pfx _ _ => pfx.bytes)) ∧
    ({ Msg := ⟨[104, 105]⟩,
        Logger := some (log.New appendSink ⟨[108, 103]⟩ 3 (fun pfx _ _ => pfx.bytes)) } :
        Thing Bytes).WriteLogger []
      = .ok [108, 103, 104, 105, 10] :=
  ⟨rfl, (C10_writeLogger
    { Msg := ⟨[104, 105]⟩,
      Logger := some (log.New appendSink ⟨[108, 103]⟩ 3 (fun pfx _ _ => pfx.bytes)) }
    (log.New appendSink ⟨[108, 103]⟩ 3 (fun pfx _ _ => pfx.bytes)) [] [] rfl).1⟩

end GoTesting
